import Mathlib

/-!
# Redecoin amount entry field (`src/qt/redecoinamountfield.cpp`)

A shallow embedding of `AmountSpinBox` and `AssetAmountField` and the
properties of parsing, live validation, stepping and unit changes.

* `CAmount` is `int64_t`; it is embedded as `Int`, and the two places where the
  source does arithmetic on it (`stepBy`, `AssetAmountField::value`) reduce the
  result with `wrapInt64` (twos complement, 64 bits).
* `QString` is `String`; the line edit of the spin box is the field `text`.
* The units library `RedecoinUnits` (`redecoinunits.h/.cpp`) is not part of the
  sources at hand.  Its functions `parse`, `assetParse`, `format` and `maxMoney`
  are taken as a parameter (`structure RedecoinUnits`); `factorAsset` and
  `MAX_ASSET_UNITS` are modelled from the specification.
-/

set_option autoImplicit false
set_option maxRecDepth 20000

/-- The amount type of the source, `typedef int64_t CAmount`. -/
abbrev CAmount := Int

/-- Reduction of an integer to the signed 64-bit range (twos complement). -/
def wrapInt64 (x : Int) : Int := (x + 2 ^ 63) % 2 ^ 64 - 2 ^ 63

/-- The function `qMin(a, b)` of Qt: `(a < b) ? a : b`. -/
def qMin (a b : CAmount) : CAmount := if a < b then a else b

/-- The function `qMax(a, b)` of Qt: `(a < b) ? b : a`. -/
def qMax (a b : CAmount) : CAmount := if a < b then b else a

/-- The mathematical clamp used to state the stepping claims. -/
def clamp (x lo hi : Int) : Int := min (max x lo) hi

/-- The values of `RedecoinUnits::SeparatorStyle`. -/
inductive SeparatorStyle where
  | separatorNever
  | separatorStandard
  | separatorAlways
  deriving DecidableEq, Repr

/-- The values of `QValidator::State`. -/
inductive State where
  | Invalid
  | Intermediate
  | Acceptable
  deriving DecidableEq, Repr

/-- The interface of the units library used by the amount field.

* `parse unit text` and `assetParse assetUnit text` give the returned `bool`
  and the content of `*val_out` after the call, the variable having been
  initialised to `0` by the caller;
* `format unit amount plussign separators assetUnit` is the rendered text;
* `maxMoney` is `RedecoinUnits::maxMoney()`. -/
structure RedecoinUnits where
  parse : Int → String → Bool × CAmount
  assetParse : Int → String → Bool × CAmount
  format : Int → CAmount → Bool → SeparatorStyle → Int → String
  maxMoney : CAmount

/-- Modelled from the spec: `MAX_ASSET_UNITS`, a constant declared outside the
sources at hand.  The specification gives the asset scale the range `0..8`,
"clamped to a maximum". -/
def MAX_ASSET_UNITS : Int := 8

/-- Modelled from the spec: `RedecoinUnits::factorAsset`, declared outside the
sources at hand.  The specification calls it `assetConversionFactor(exponent)`,
an integer multiplier, and gives the factor applied by the asset field as
`10^(8 - assetScale)`, the scale being in `0..8`; the specification is silent
on a negative exponent, for which this definition gives `1`. -/
def factorAsset (unit : Int) : CAmount := 10 ^ unit.toNat

/-- The flags of `QAbstractSpinBox::StepEnabled`: `StepNone` has neither bit,
`StepUpEnabled` and `StepDownEnabled` are the two bits. -/
structure StepEnabled where
  up : Bool
  down : Bool
  deriving DecidableEq, Repr

/-- Embedding of `QAbstractSpinBox::StepNone`. -/
def StepNone : StepEnabled := ⟨false, false⟩

/-- Embedding of `QAbstractSpinBox::StepUpEnabled`. -/
def StepUpEnabled : StepEnabled := ⟨true, false⟩

/-- The state of an `AmountSpinBox`: the text of its line edit, its private
members `currentUnit`, `singleStep`, `assetUnit`, and the read-only property of
the underlying `QAbstractSpinBox`. -/
structure AmountSpinBox where
  text : String
  currentUnit : Int
  singleStep : CAmount
  assetUnit : Int
  readOnly : Bool
  deriving DecidableEq, Repr

namespace AmountSpinBox

/-- The call of the units library made by `AmountSpinBox::parse`:
`assetParse(assetUnit, text, &val)` when `assetUnit >= 0`, else
`parse(currentUnit, text, &val)`; the pair is (returned `bool`, `val`). -/
def delegate (U : RedecoinUnits) (self : AmountSpinBox) (text : String) : Bool × CAmount :=
  if self.assetUnit ≥ 0 then U.assetParse self.assetUnit text
  else U.parse self.currentUnit text

/-- Embedding of `AmountSpinBox::parse(text, &valid)`, as the pair (returned amount, valid). -/
def parse (U : RedecoinUnits) (self : AmountSpinBox) (text : String) : CAmount × Bool :=
  let r := self.delegate U text
  let val : CAmount := r.2
  let valid : Bool := r.1
  let valid : Bool := if valid then (if val < 0 ∨ val > U.maxMoney then false else valid) else valid
  (if valid then val else 0, valid)

/-- Embedding of `AmountSpinBox::validate(text, pos)`. -/
def validate (U : RedecoinUnits) (self : AmountSpinBox) (text : String) : State :=
  if text.isEmpty then State.Intermediate
  else
    let valid := (self.parse U text).2
    if valid then State.Intermediate else State.Invalid

/-- Embedding of `AmountSpinBox::value(&valid)`: parse the text of the line edit. -/
def value (U : RedecoinUnits) (self : AmountSpinBox) : CAmount × Bool :=
  self.parse U self.text

/-- Embedding of `AmountSpinBox::setValue(value)`: the line edit shows the formatted value. -/
def setValue (U : RedecoinUnits) (self : AmountSpinBox) (value : CAmount) : AmountSpinBox :=
  { self with text := U.format self.currentUnit value false SeparatorStyle.separatorAlways self.assetUnit }

/-- The line edit receives the text `text` (typed by the user, or set by
`lineEdit()->setText(text)`). -/
def setText (self : AmountSpinBox) (text : String) : AmountSpinBox :=
  { self with text := text }

/-- Embedding of `QAbstractSpinBox::clear()`: the line edit is emptied. -/
def clear (self : AmountSpinBox) : AmountSpinBox :=
  { self with text := "" }

/-- Embedding of `AmountSpinBox::fixup(input)`: the new state and the new content of `input`. -/
def fixup (U : RedecoinUnits) (self : AmountSpinBox) (input : String) : AmountSpinBox × String :=
  let r := self.parse U input
  if r.2 then
    let input := U.format self.currentUnit r.1 false SeparatorStyle.separatorAlways self.assetUnit
    ({ self with text := input }, input)
  else (self, input)

/-- Embedding of `AmountSpinBox::stepBy(steps)`. -/
def stepBy (U : RedecoinUnits) (self : AmountSpinBox) (steps : Int) : AmountSpinBox :=
  let val : CAmount := (self.value U).1
  let val : CAmount := wrapInt64 (val + wrapInt64 (steps * self.singleStep))
  let val : CAmount := qMin (qMax val 0) U.maxMoney
  self.setValue U val

/-- Embedding of `AmountSpinBox::setDisplayUnit(unit)`. -/
def setDisplayUnit (U : RedecoinUnits) (self : AmountSpinBox) (unit : Int) : AmountSpinBox :=
  let r := self.value U
  let self := { self with currentUnit := unit }
  if r.2 then self.setValue U r.1 else self.clear

/-- Embedding of `AmountSpinBox::setSingleStep(step)`. -/
def setSingleStep (self : AmountSpinBox) (step : CAmount) : AmountSpinBox :=
  { self with singleStep := step }

/-- Embedding of `AmountSpinBox::setAssetUnit(unit)`. -/
def setAssetUnit (U : RedecoinUnits) (self : AmountSpinBox) (unit : Int) : AmountSpinBox :=
  let unit := if unit > MAX_ASSET_UNITS then MAX_ASSET_UNITS else unit
  let self := { self with assetUnit := unit }
  let r := self.value U
  if r.2 then self.setValue U r.1 else self.clear

/-- Embedding of `AmountSpinBox::stepEnabled()`. -/
def stepEnabled (U : RedecoinUnits) (self : AmountSpinBox) : StepEnabled :=
  if self.readOnly then StepNone
  else if self.text.isEmpty then StepUpEnabled
  else
    let rv : StepEnabled := StepNone
    let r := self.value U
    if r.2 then
      let rv := if r.1 > 0 then { rv with down := true } else rv
      let rv := if r.1 < U.maxMoney then { rv with up := true } else rv
      rv
    else rv

end AmountSpinBox

/-- The state of an `AssetAmountField`: the inner spin box `amount` and the
member `assetUnit`. -/
structure AssetAmountField where
  amount : AmountSpinBox
  assetUnit : Int
  deriving DecidableEq, Repr

namespace AssetAmountField

/-- Embedding of `AssetAmountField::value(&valid)`: the inner value times
`factorAsset(8 - assetUnit)`, a product of two 64-bit integers. -/
def value (U : RedecoinUnits) (self : AssetAmountField) : CAmount × Bool :=
  let r := self.amount.value U
  (wrapInt64 (r.1 * factorAsset (8 - self.assetUnit)), r.2)

/-- Embedding of `AssetAmountField::setUnit(unit)`. -/
def setUnit (U : RedecoinUnits) (self : AssetAmountField) (unit : Int) : AssetAmountField :=
  let self := { self with assetUnit := unit }
  { self with amount := self.amount.setAssetUnit U self.assetUnit }

/-- The line edit of the inner spin box receives the text `text`. -/
def setText (self : AssetAmountField) (text : String) : AssetAmountField :=
  { self with amount := self.amount.setText text }

/-- Embedding of `AssetAmountField::setValue(value)`. -/
def setValue (U : RedecoinUnits) (self : AssetAmountField) (value : CAmount) : AssetAmountField :=
  { self with amount := self.amount.setValue U value }

end AssetAmountField

/-! ## A sample units library

The theorems below hold for every units library.  The library of this section
is one instance, written after the interface and the scenarios of the
specification; the witnesses and counterexamples are evaluated on it. -/

namespace SampleUnits

/-- Modelled from the spec: the number of decimal places of a display unit
("whole-coin" has 8 implied decimal places, "milli-coin" 5, "micro-coin" 2);
`none` for a number that is no display unit. -/
def decimals (unit : Int) : Option Nat :=
  if unit = 0 then some 8 else if unit = 1 then some 5 else if unit = 2 then some 2 else none

/-- Modelled from the spec: a helper of the sample units library, which is not
part of the sources at hand: the value of a decimal digit character. -/
def digitValue (c : Char) : Option Nat :=
  if 48 ≤ c.toNat ∧ c.toNat ≤ 57 then some (c.toNat - 48) else none

/-- Modelled from the spec: a helper of the sample units library: the number
written by a list of decimal digits, `none` when a character is not a digit. -/
def digitsValue : List Char → Nat → Option Nat
  | [], acc => some acc
  | c :: cs, acc =>
    match digitValue c with
    | some d => digitsValue cs (10 * acc + d)
    | none => none

/-- Modelled from the spec: parsing of a decimal text with `numDecimals` implied
decimal places: grouping separators `,` are dropped, at most `numDecimals`
digits may follow the decimal separator `.`, the empty text is refused, and so
is a number of more than 18 digits, which may not fit a `CAmount`. -/
def parseDecimal (numDecimals : Nat) (text : String) : Bool × CAmount :=
  let cs := text.data.filter (fun c => c ≠ ',')
  let whole := cs.takeWhile (fun c => c ≠ '.')
  let frac := (cs.dropWhile (fun c => c ≠ '.')).drop 1
  if text.isEmpty ∨ frac.length > numDecimals then (false, 0)
  else
    let str := whole ++ frac ++ List.replicate (numDecimals - frac.length) '0'
    if str.isEmpty ∨ str.length > 18 then (false, 0)
    else
      match digitsValue str 0 with
      | some n => (true, (n : Int))
      | none => (false, 0)

/-- Modelled from the spec: `parseAmount(unit, text)`. -/
def parse (unit : Int) (text : String) : Bool × CAmount :=
  match decimals unit with
  | some d => parseDecimal d text
  | none => (false, 0)

/-- Modelled from the spec: `parseAssetAmount(assetScale, text)`. -/
def assetParse (assetUnit : Int) (text : String) : Bool × CAmount :=
  if 0 ≤ assetUnit ∧ assetUnit ≤ 8 then parseDecimal assetUnit.toNat text else (false, 0)

/-- Modelled from the spec: a helper of the sample units library: the decimal
digits of `n`, most significant first (`fuel` bounds their number). -/
def natDigits : Nat → Nat → List Char
  | 0, _ => []
  | fuel + 1, n =>
    if n < 10 then [Char.ofNat (48 + n)]
    else natDigits fuel (n / 10) ++ [Char.ofNat (48 + n % 10)]

/-- Modelled from the spec: a helper of the sample units library: insertion of
a `,` after every third digit of a reversed digit list. -/
def groupRev : List Char → Nat → List Char
  | [], _ => []
  | c :: cs, k => if k = 3 then ',' :: c :: groupRev cs 1 else c :: groupRev cs (k + 1)

/-- Modelled from the spec: `formatAmount(unit, value, alwaysShowSeparator,
assetScale)`: a fixed decimal separator `.`, all decimal places shown, and the
integer part grouped by `,`.  The asset scale, when not negative, replaces the
decimal places of the display unit. -/
def format (unit : Int) (n : CAmount) (plussign : Bool) (separators : SeparatorStyle)
    (assetUnit : Int) : String :=
  match (if assetUnit ≥ 0 then some assetUnit.toNat else decimals unit) with
  | none => ""
  | some d =>
    let q := n.natAbs / 10 ^ d
    let r := n.natAbs % 10 ^ d
    let whole := natDigits 20 q
    let whole :=
      if separators = SeparatorStyle.separatorAlways ∨
          (separators = SeparatorStyle.separatorStandard ∧ whole.length > 4)
      then (groupRev whole.reverse 0).reverse else whole
    let sign := if n < 0 then ['-'] else if plussign ∧ n > 0 then ['+'] else []
    let frac := natDigits 20 r
    let frac := List.replicate (d - frac.length) '0' ++ frac
    String.mk (sign ++ whole ++ (if d > 0 then '.' :: frac else []))

/-- Modelled from the spec: `maxMoney()`, "the fixed upper bound on any valid
AmountValue"; the sample takes 21 million coins of `10^8` base units. -/
def maxMoney : CAmount := 2100000000000000

end SampleUnits

/-- Modelled from the spec: a units library (`RedecoinUnits`, not part of the
sources at hand) with the interface the specification lists, used to evaluate
the field on concrete texts. -/
def sampleUnits : RedecoinUnits :=
  { parse := SampleUnits.parse
    assetParse := SampleUnits.assetParse
    format := SampleUnits.format
    maxMoney := SampleUnits.maxMoney }

/-! ## Concrete fields for the sample library -/

/-- A spin box in display-unit mode (whole coins, no asset scale) showing `text`. -/
def sampleSpinBox (text : String) : AmountSpinBox :=
  { text := text, currentUnit := 0, singleStep := 100000, assetUnit := -1, readOnly := false }

/-- A spin box in asset mode with scale `scale` showing `text`. -/
def sampleAssetSpinBox (scale : Int) (text : String) : AmountSpinBox :=
  { text := text, currentUnit := 0, singleStep := 100000, assetUnit := scale, readOnly := false }

/-- An asset field after `setUnit(scale)`, the user having then typed `text`:
the field starts as the constructor leaves it (empty, scale `MAX_ASSET_UNITS`). -/
def sampleAssetField (scale : Int) (text : String) : AssetAmountField :=
  ((AssetAmountField.mk (sampleAssetSpinBox MAX_ASSET_UNITS "") MAX_ASSET_UNITS).setUnit
    sampleUnits scale).setText text

/-! ## Parsing -/

namespace AmountSpinBox

/-- The result of `parse` when the library call succeeds with a number in range. -/
theorem parse_of_accept (U : RedecoinUnits) (self : AmountSpinBox) (text : String)
    (hok : (self.delegate U text).1 = true)
    (hlo : 0 ≤ (self.delegate U text).2) (hhi : (self.delegate U text).2 ≤ U.maxMoney) :
    self.parse U text = ((self.delegate U text).2, true) := by
  have h : ¬ ((self.delegate U text).2 < 0 ∨ (self.delegate U text).2 > U.maxMoney) := by
    rintro (h | h)
    · exact absurd hlo (not_le.mpr h)
    · exact absurd hhi (not_le.mpr h)
  simp [parse, hok, h]

/-- The result of `parse` when the library call fails or gives a number out of range. -/
theorem parse_of_reject (U : RedecoinUnits) (self : AmountSpinBox) (text : String)
    (h : (self.delegate U text).1 = false ∨ (self.delegate U text).2 < 0 ∨
      (self.delegate U text).2 > U.maxMoney) :
    self.parse U text = (0, false) := by
  rcases h with h | h
  · simp [parse, h]
  · cases hok : (self.delegate U text).1
    · simp [parse, hok]
    · simp [parse, hok, h]

/-- A valid result of `parse` is the number given by the library, in range. -/
theorem parse_valid (U : RedecoinUnits) (self : AmountSpinBox) (text : String)
    (h : (self.parse U text).2 = true) :
    (self.delegate U text).1 = true ∧ (self.parse U text).1 = (self.delegate U text).2 ∧
      0 ≤ (self.parse U text).1 ∧ (self.parse U text).1 ≤ U.maxMoney := by
  by_cases hr : (self.delegate U text).1 = false ∨ (self.delegate U text).2 < 0 ∨
      (self.delegate U text).2 > U.maxMoney
  · rw [parse_of_reject U self text hr] at h
    simp at h
  · have hok : (self.delegate U text).1 = true := by
      cases hb : (self.delegate U text).1
      · exact absurd (Or.inl hb) hr
      · rfl
    have hlo : 0 ≤ (self.delegate U text).2 := by
      by_contra hc
      exact hr (Or.inr (Or.inl (lt_of_not_le hc)))
    have hhi : (self.delegate U text).2 ≤ U.maxMoney := by
      by_contra hc
      exact hr (Or.inr (Or.inr (lt_of_not_le hc)))
    rw [parse_of_accept U self text hok hlo hhi]
    exact ⟨hok, rfl, hlo, hhi⟩

/-- An invalid result of `parse` carries the amount `0`. -/
theorem parse_invalid (U : RedecoinUnits) (self : AmountSpinBox) (text : String)
    (h : (self.parse U text).2 = false) : self.parse U text = (0, false) := by
  by_cases hr : (self.delegate U text).1 = false ∨ (self.delegate U text).2 < 0 ∨
      (self.delegate U text).2 > U.maxMoney
  · exact parse_of_reject U self text hr
  · exfalso
    have hok : (self.delegate U text).1 = true := by
      cases hb : (self.delegate U text).1
      · exact absurd (Or.inl hb) hr
      · rfl
    have hlo : 0 ≤ (self.delegate U text).2 := by
      by_contra hc
      exact hr (Or.inr (Or.inl (lt_of_not_le hc)))
    have hhi : (self.delegate U text).2 ≤ U.maxMoney := by
      by_contra hc
      exact hr (Or.inr (Or.inr (lt_of_not_le hc)))
    rw [parse_of_accept U self text hok hlo hhi] at h
    simp at h

/-- The amount returned by `parse` is never negative and never above `maxMoney`
when valid; it is `0` otherwise. -/
theorem parse_nonneg (U : RedecoinUnits) (self : AmountSpinBox) (text : String) :
    0 ≤ (self.parse U text).1 := by
  cases h : (self.parse U text).2
  · rw [parse_invalid U self text h]
  · exact (parse_valid U self text h).2.2.1

/-- C1: for every text and every scale context, a valid result of
`AmountSpinBox::parse` lies in `[0, maxMoney()]`, and when the delegated unit or
asset parser fails, or succeeds with a number below `0` or above `maxMoney()`,
`parse` returns `valid == false` and the value `0`. -/
theorem parse_range_contract (U : RedecoinUnits) (self : AmountSpinBox) (text : String) :
    ((self.parse U text).2 = true →
        0 ≤ (self.parse U text).1 ∧ (self.parse U text).1 ≤ U.maxMoney) ∧
      (((self.delegate U text).1 = false ∨
          ((self.delegate U text).1 = true ∧
            ((self.delegate U text).2 < 0 ∨ (self.delegate U text).2 > U.maxMoney))) →
        (self.parse U text).2 = false ∧ (self.parse U text).1 = 0) := by
  refine ⟨fun h => (parse_valid U self text h).2.2, fun h => ?_⟩
  have hr : (self.delegate U text).1 = false ∨ (self.delegate U text).2 < 0 ∨
      (self.delegate U text).2 > U.maxMoney := by
    rcases h with h | ⟨_, h⟩
    · exact Or.inl h
    · exact Or.inr h
  rw [parse_of_reject U self text hr]
  exact ⟨rfl, rfl⟩

/-- Witness of C1: in whole-coin mode the text `1,234.5` is valid with a value
in range, the text `30000000` is accepted by the library with a number above
`maxMoney` and `parse` answers `(0, false)`; so does the asset text `1.234` at
scale 2, which the library refuses. -/
theorem parse_range_contract_witness :
    ((sampleSpinBox "").parse sampleUnits "1,234.5" = (123450000000, true) ∧
        (0 : Int) ≤ 123450000000 ∧ (123450000000 : Int) ≤ sampleUnits.maxMoney) ∧
      ((sampleSpinBox "").delegate sampleUnits "30000000" = (true, 3000000000000000) ∧
        (sampleSpinBox "").parse sampleUnits "30000000" = (0, false)) ∧
      ((sampleAssetSpinBox 2 "").delegate sampleUnits "1.234" = (false, 0) ∧
        (sampleAssetSpinBox 2 "").parse sampleUnits "1.234" = (0, false)) := by
  have hv : (sampleSpinBox "").parse sampleUnits "1,234.5" = (123450000000, true) := by decide
  have hd : (sampleSpinBox "").delegate sampleUnits "30000000" = (true, 3000000000000000) := by
    decide
  have ha : (sampleAssetSpinBox 2 "").delegate sampleUnits "1.234" = (false, 0) := by decide
  have h1 := (parse_range_contract sampleUnits (sampleSpinBox "") "1,234.5").1 (by rw [hv])
  have h2 := (parse_range_contract sampleUnits (sampleSpinBox "") "30000000").2
    (Or.inr ⟨by rw [hd], Or.inr (by rw [hd]; decide)⟩)
  have h3 := (parse_range_contract sampleUnits (sampleAssetSpinBox 2 "") "1.234").2
    (Or.inl (by rw [ha]))
  rw [hv] at h1
  exact ⟨⟨hv, h1⟩, ⟨hd, Prod.ext h2.2 h2.1⟩, ⟨ha, Prod.ext h3.2 h3.1⟩⟩

end AmountSpinBox

/-! ## Live validation -/

namespace AmountSpinBox

/-- Live validation of the empty text. -/
theorem validate_empty (U : RedecoinUnits) (self : AmountSpinBox) :
    self.validate U "" = State.Intermediate := by
  simp [validate, String.isEmpty_iff]

/-- Live validation of a text that is not empty follows the validity flag of `parse`. -/
theorem validate_nonempty (U : RedecoinUnits) (self : AmountSpinBox) (text : String)
    (hne : text ≠ "") :
    self.validate U text =
      if (self.parse U text).2 = true then State.Intermediate else State.Invalid := by
  have h : text.isEmpty = false := by
    cases hb : text.isEmpty
    · rfl
    · exact absurd ((String.isEmpty_iff text).mp hb) hne
  simp [validate, h]

/-- C2: live validation (`AmountSpinBox::validate`) answers `Intermediate` for
the empty text; for a text that is not empty it answers `Intermediate` when
`parse` reports the text valid and `Invalid` when it does not; it never answers
`Acceptable`.  The spin box is arbitrary, in display-unit or asset-scale mode. -/
theorem validate_live (U : RedecoinUnits) (self : AmountSpinBox) (text : String) :
    self.validate U "" = State.Intermediate ∧
      (text ≠ "" → (self.parse U text).2 = true → self.validate U text = State.Intermediate) ∧
      (text ≠ "" → (self.parse U text).2 = false → self.validate U text = State.Invalid) ∧
      self.validate U text ≠ State.Acceptable := by
  refine ⟨validate_empty U self, ?_, ?_, ?_⟩
  · intro hne hv
    rw [validate_nonempty U self text hne, if_pos hv]
  · intro hne hv
    rw [validate_nonempty U self text hne, hv]
    simp
  · by_cases hne : text = ""
    · rw [hne, validate_empty]
      decide
    · rw [validate_nonempty U self text hne]
      split <;> decide

/-- Witness of C2: `1,234.5` is valid in whole-coin mode and `Intermediate`,
`12x` is not valid and `Invalid`; in asset mode at scale 2, `10.00` is valid and
`Intermediate`, `1.234` is not valid and `Invalid`. -/
theorem validate_live_witness :
    ((sampleSpinBox "").parse sampleUnits "1,234.5").2 = true ∧
      (sampleSpinBox "").validate sampleUnits "1,234.5" = State.Intermediate ∧
      ((sampleSpinBox "").parse sampleUnits "12x").2 = false ∧
      (sampleSpinBox "").validate sampleUnits "12x" = State.Invalid ∧
      ((sampleAssetSpinBox 2 "").parse sampleUnits "10.00").2 = true ∧
      (sampleAssetSpinBox 2 "").validate sampleUnits "10.00" = State.Intermediate ∧
      ((sampleAssetSpinBox 2 "").parse sampleUnits "1.234").2 = false ∧
      (sampleAssetSpinBox 2 "").validate sampleUnits "1.234" = State.Invalid :=
  ⟨by decide,
    (validate_live sampleUnits (sampleSpinBox "") "1,234.5").2.1 (by decide) (by decide),
    by decide,
    (validate_live sampleUnits (sampleSpinBox "") "12x").2.2.1 (by decide) (by decide),
    by decide,
    (validate_live sampleUnits (sampleAssetSpinBox 2 "") "10.00").2.1 (by decide) (by decide),
    by decide,
    (validate_live sampleUnits (sampleAssetSpinBox 2 "") "1.234").2.2.1 (by decide) (by decide)⟩

/-- C9, as stated, fails: in whole-coin mode the text `30000000` is not empty,
the unit parser accepts it with the number `3000000000000000`, above
`maxMoney() = 2100000000000000`, and `validate` answers `Invalid`, not
`Intermediate`. -/
theorem validate_out_of_range_not_intermediate :
    "30000000" ≠ "" ∧
      (sampleSpinBox "").delegate sampleUnits "30000000" = (true, 3000000000000000) ∧
      (3000000000000000 : Int) > sampleUnits.maxMoney ∧
      (sampleSpinBox "").validate sampleUnits "30000000" = State.Invalid ∧
      (sampleSpinBox "").validate sampleUnits "30000000" ≠ State.Intermediate := by
  decide

/-- C9, amended: for every text that is not empty and that the unit (or asset)
parser accepts with a number greater than `maxMoney()`, `AmountSpinBox::validate`
answers `Invalid`. -/
theorem validate_out_of_range_invalid (U : RedecoinUnits) (self : AmountSpinBox)
    (text : String) (hne : text ≠ "") (_hok : (self.delegate U text).1 = true)
    (hbig : (self.delegate U text).2 > U.maxMoney) :
    self.validate U text = State.Invalid := by
  have hp := parse_of_reject U self text (Or.inr (Or.inr hbig))
  rw [validate_nonempty U self text hne, hp]
  simp

/-- Witness of C9 amended: the asset text `3000000000000000` at scale 0. -/
theorem validate_out_of_range_invalid_witness :
    (sampleAssetSpinBox 0 "").delegate sampleUnits "3000000000000000" =
        (true, 3000000000000000) ∧
      (sampleAssetSpinBox 0 "").validate sampleUnits "3000000000000000" = State.Invalid :=
  ⟨by decide,
    validate_out_of_range_invalid sampleUnits (sampleAssetSpinBox 0 "") "3000000000000000"
      (by decide) (by decide) (by decide)⟩

/-! ## Step availability -/

/-- The text of a field is empty exactly when `isEmpty` says so. -/
theorem isEmpty_eq_false_of_ne (text : String) (hne : text ≠ "") : text.isEmpty = false := by
  cases hb : text.isEmpty
  · rfl
  · exact absurd ((String.isEmpty_iff text).mp hb) hne

/-- Step availability of a field that is not read-only and whose text is empty. -/
theorem stepEnabled_empty (U : RedecoinUnits) (self : AmountSpinBox)
    (hro : self.readOnly = false) (ht : self.text = "") :
    self.stepEnabled U = StepUpEnabled := by
  simp [stepEnabled, hro, ht, String.isEmpty_iff]

/-- Step availability of a field that is not read-only and whose text is not empty. -/
theorem stepEnabled_nonempty (U : RedecoinUnits) (self : AmountSpinBox)
    (hro : self.readOnly = false) (ht : self.text ≠ "") :
    self.stepEnabled U =
      if (self.value U).2 = true then
        ⟨decide ((self.value U).1 < U.maxMoney), decide ((self.value U).1 > 0)⟩
      else StepNone := by
  have he := isEmpty_eq_false_of_ne self.text ht
  unfold stepEnabled
  rw [hro, he]
  simp only [Bool.false_eq_true, if_false]
  by_cases hv : (self.value U).2 = true
  · rw [if_pos hv, if_pos hv]
    by_cases h1 : (self.value U).1 > 0 <;> by_cases h2 : (self.value U).1 < U.maxMoney <;>
      simp [h1, h2, StepNone]
  · rw [if_neg hv, if_neg hv]

/-- C10: `AmountSpinBox::stepEnabled`.  For a read-only field neither step is
enabled.  For a field that is not read-only, the units library refusing the
empty text: step-down is enabled exactly when the text parses to a valid value
above `0`, so it is disabled at `0`, for the empty text and for a text that
does not parse; step-up is enabled exactly when the text is empty or parses to
a valid value below `maxMoney()`, so it is disabled at `maxMoney()`. -/
theorem stepEnabled_spec (U : RedecoinUnits) (self : AmountSpinBox) :
    (self.readOnly = true → self.stepEnabled U = StepNone) ∧
      (self.readOnly = false → (self.parse U "").2 = false →
        (((self.stepEnabled U).down = true ↔
            ((self.value U).2 = true ∧ 0 < (self.value U).1)) ∧
          ((self.stepEnabled U).up = true ↔
            (self.text = "" ∨ ((self.value U).2 = true ∧ (self.value U).1 < U.maxMoney))) ∧
          ((self.value U).1 = 0 → (self.stepEnabled U).down = false) ∧
          (self.text = "" → (self.stepEnabled U).down = false) ∧
          ((self.value U).2 = false → (self.stepEnabled U).down = false) ∧
          ((self.value U).2 = true → (self.value U).1 = U.maxMoney →
            (self.stepEnabled U).up = false))) := by
  refine ⟨fun hro => by simp [stepEnabled, hro], fun hro hempty => ?_⟩
  by_cases ht : self.text = ""
  · have hval : (self.value U).2 = false := by
      unfold value
      rw [ht]
      exact hempty
    rw [stepEnabled_empty U self hro ht]
    simp [StepUpEnabled, hval, ht]
  · rw [stepEnabled_nonempty U self hro ht]
    by_cases hv : (self.value U).2 = true
    · rw [if_pos hv]
      refine ⟨by simp [hv], by simp [hv, ht], fun h => ?_, fun h => absurd h ht, fun h => ?_,
        fun _ h => ?_⟩
      · simp [h]
      · rw [hv] at h
        exact absurd h (by decide)
      · simp [h]
    · have hv2 : (self.value U).2 = false := by
        cases hb : (self.value U).2
        · rfl
        · exact absurd hb hv
      rw [if_neg hv]
      simp [hv2, ht, StepNone]

/-- Witness of C10: a read-only field has no step; the field showing `1,234.5`
has both steps, the field showing `0` only the step up, the field showing
`maxMoney()` only the step down, the field showing `12x` none. -/
theorem stepEnabled_spec_witness :
    ({ sampleSpinBox "1,234.5" with readOnly := true } : AmountSpinBox).stepEnabled sampleUnits
        = StepNone ∧
      (((sampleSpinBox "1,234.5").stepEnabled sampleUnits).down = true ↔
        (((sampleSpinBox "1,234.5").value sampleUnits).2 = true ∧
          0 < ((sampleSpinBox "1,234.5").value sampleUnits).1)) ∧
      (sampleSpinBox "1,234.5").stepEnabled sampleUnits = ⟨true, true⟩ ∧
      (sampleSpinBox "0").stepEnabled sampleUnits = ⟨true, false⟩ ∧
      (sampleSpinBox "21,000,000.00000000").stepEnabled sampleUnits = ⟨false, true⟩ ∧
      (sampleSpinBox "12x").stepEnabled sampleUnits = ⟨false, false⟩ :=
  ⟨(stepEnabled_spec sampleUnits { sampleSpinBox "1,234.5" with readOnly := true }).1 rfl,
    ((stepEnabled_spec sampleUnits (sampleSpinBox "1,234.5")).2 rfl (by decide)).1,
    by decide, by decide, by decide, by decide⟩

end AmountSpinBox

/-! ## Machine arithmetic -/

/-- A number of the signed 64-bit range is left as it is. -/
theorem wrapInt64_of_fits (x : Int) (hlo : -2 ^ 63 ≤ x) (hhi : x < 2 ^ 63) :
    wrapInt64 x = x := by
  unfold wrapInt64
  omega

/-- The reduction to 64 bits stays below `2^63`. -/
theorem wrapInt64_lt (x : Int) : wrapInt64 x < 2 ^ 63 := by
  unfold wrapInt64
  omega

/-- Reducing a summand first does not change the reduced sum. -/
theorem wrapInt64_add_wrapInt64 (a b : Int) :
    wrapInt64 (a + wrapInt64 b) = wrapInt64 (a + b) := by
  unfold wrapInt64
  omega

/-- The composition `qMin(qMax(x, 0), hi)` of the source is the clamp to `[0, hi]`. -/
theorem qMin_qMax_eq_clamp (x hi : Int) : qMin (qMax x 0) hi = clamp x 0 hi := by
  unfold qMin qMax clamp
  delta CAmount
  split_ifs <;> omega

/-- A number at or above the upper bound is clamped to the upper bound. -/
theorem clamp_of_ge (x hi : Int) (h : hi ≤ x) : clamp x 0 hi = hi := by
  unfold clamp
  omega

/-- A number at or below `0` is clamped to `0`. -/
theorem clamp_of_nonpos (x hi : Int) (h0 : 0 ≤ hi) (h : x ≤ 0) : clamp x 0 hi = 0 := by
  unfold clamp
  omega

/-! ## Stepping -/

namespace AmountSpinBox

/-- The field after `stepBy`, in machine arithmetic. -/
theorem stepBy_eq (U : RedecoinUnits) (self : AmountSpinBox) (steps : Int) :
    self.stepBy U steps =
      self.setValue U
        (clamp (wrapInt64 ((self.value U).1 + steps * self.singleStep)) 0 U.maxMoney) := by
  unfold stepBy
  simp only [wrapInt64_add_wrapInt64, qMin_qMax_eq_clamp]

/-- The overflow of `stepBy` does not depend on the value of `maxMoney()`: for
every units library with `0 <= maxMoney() < 2^63`, a field at `maxMoney()` with
`singleStep = 2^62` is set to `0` by `stepBy(2)`. -/
theorem stepBy_wraps (U : RedecoinUnits) (self : AmountSpinBox)
    (hm0 : 0 ≤ U.maxMoney) (hm : U.maxMoney < 2 ^ 63)
    (hval : (self.value U).1 = U.maxMoney) (hstep : self.singleStep = 2 ^ 62) :
    self.stepBy U 2 = self.setValue U 0 := by
  have hw : ∀ m : Int, 0 ≤ m → m < 2 ^ 63 → clamp (wrapInt64 (m + 2 * 2 ^ 62)) 0 m = 0 := by
    intro m h0 h1
    unfold clamp wrapInt64
    omega
  rw [stepBy_eq, hval, hstep, hw U.maxMoney hm0 hm]

/-- C3, as stated, fails: the field shows `maxMoney()`, `singleStep` is `2^62`
and `stepBy(2)` is called.  The claim gives `clamp(maxMoney() + 2^63, 0,
maxMoney()) = maxMoney()`; in 64-bit arithmetic `2 * 2^62` is `-2^63`, and the
field is set to `0`. -/
theorem stepBy_overflow_counterexample :
    (((sampleSpinBox "21,000,000.00000000").setSingleStep 4611686018427387904).value
        sampleUnits = (sampleUnits.maxMoney, true)) ∧
      (clamp (sampleUnits.maxMoney + 2 * 4611686018427387904) 0 sampleUnits.maxMoney
        = sampleUnits.maxMoney) ∧
      (((sampleSpinBox "21,000,000.00000000").setSingleStep 4611686018427387904).stepBy
          sampleUnits 2).text = "0.00000000" ∧
      (((sampleSpinBox "21,000,000.00000000").setSingleStep 4611686018427387904).stepBy
          sampleUnits 2).value sampleUnits = (0, true) ∧
      ((sampleSpinBox "21,000,000.00000000").setSingleStep 4611686018427387904).stepBy
          sampleUnits 2 ≠
        ((sampleSpinBox "21,000,000.00000000").setSingleStep 4611686018427387904).setValue
          sampleUnits
          (clamp (sampleUnits.maxMoney + 2 * 4611686018427387904) 0 sampleUnits.maxMoney) := by
  decide

/-- C3, amended: for every current text, every step count `steps` and every
`singleStep` such that `current + steps * singleStep` lies in the signed 64-bit
range, `stepBy` sets the field to `clamp(current + steps * singleStep, 0,
maxMoney())`, where `current` is the parsed value of the text (`0` when the
text does not parse).  In particular, under that condition, starting at
`maxMoney()` a step up leaves the field at `maxMoney()`, and starting at `0` a
step down leaves it at `0` (`maxMoney()` not being negative). -/
theorem stepBy_clamps (U : RedecoinUnits) (self : AmountSpinBox) (steps : Int)
    (hlo : -2 ^ 63 ≤ (self.value U).1 + steps * self.singleStep)
    (hhi : (self.value U).1 + steps * self.singleStep < 2 ^ 63) :
    self.stepBy U steps =
        self.setValue U (clamp ((self.value U).1 + steps * self.singleStep) 0 U.maxMoney) ∧
      ((self.value U).1 = U.maxMoney → 0 < steps → 0 < self.singleStep →
        self.stepBy U steps = self.setValue U U.maxMoney) ∧
      ((self.value U).1 = 0 → steps < 0 → 0 < self.singleStep → 0 ≤ U.maxMoney →
        self.stepBy U steps = self.setValue U 0) := by
  have hstep : self.stepBy U steps =
      self.setValue U (clamp ((self.value U).1 + steps * self.singleStep) 0 U.maxMoney) := by
    rw [stepBy_eq, wrapInt64_of_fits _ hlo hhi]
  refine ⟨hstep, fun hc hs hp => ?_, fun hc hs hp hm => ?_⟩
  · rw [hstep]
    congr 1
    have hprod : 0 < steps * self.singleStep := Int.mul_pos hs hp
    exact clamp_of_ge _ _ (by rw [hc]; exact le_add_of_nonneg_right (le_of_lt hprod))
  · rw [hstep]
    congr 1
    have hprod : steps * self.singleStep < 0 := Int.mul_neg_of_neg_of_pos hs hp
    exact clamp_of_nonpos _ _ hm (by rw [hc, zero_add]; exact le_of_lt hprod)

/-- Witness of C3 amended: the field showing `1,234.5` stepped up three times
by `100000`, the field showing `maxMoney()` stepped up, the field showing `0`
stepped down. -/
theorem stepBy_clamps_witness :
    (sampleSpinBox "1,234.5").stepBy sampleUnits 3 =
        (sampleSpinBox "1,234.5").setValue sampleUnits 123450300000 ∧
      (sampleSpinBox "21,000,000.00000000").stepBy sampleUnits 1 =
        (sampleSpinBox "21,000,000.00000000").setValue sampleUnits sampleUnits.maxMoney ∧
      (sampleSpinBox "0").stepBy sampleUnits (-1) = (sampleSpinBox "0").setValue sampleUnits 0 :=
  ⟨(stepBy_clamps sampleUnits (sampleSpinBox "1,234.5") 3 (by decide) (by decide)).1,
    (stepBy_clamps sampleUnits (sampleSpinBox "21,000,000.00000000") 1 (by decide)
      (by decide)).2.1 (by decide) (by decide) (by decide),
    (stepBy_clamps sampleUnits (sampleSpinBox "0") (-1) (by decide) (by decide)).2.2
      (by decide) (by decide) (by decide) (by decide)⟩

/-! ## Reading back a value that was set -/

/-- The field after `setValue` reads the value back when the library call made
by `parse` inverts `format` at that value. -/
theorem value_setValue (U : RedecoinUnits) (self : AmountSpinBox) (v : CAmount)
    (hlo : 0 ≤ v) (hhi : v ≤ U.maxMoney)
    (hinv : self.delegate U
      (U.format self.currentUnit v false SeparatorStyle.separatorAlways self.assetUnit)
        = (true, v)) :
    (self.setValue U v).value U = (v, true) := by
  have hd : (self.setValue U v).delegate U (self.setValue U v).text = (true, v) := hinv
  have h := parse_of_accept U (self.setValue U v) (self.setValue U v).text
    (by rw [hd]) (by rw [hd]; exact hlo) (by rw [hd]; exact hhi)
  rw [hd] at h
  exact h

/-- In display-unit mode the library call made by `parse` is `RedecoinUnits::parse`. -/
theorem delegate_display (U : RedecoinUnits) (self : AmountSpinBox) (text : String)
    (hmode : self.assetUnit < 0) : self.delegate U text = U.parse self.currentUnit text := by
  unfold delegate
  rw [if_neg (not_le.mpr hmode)]

/-- C4: for every `v` with `0 <= v <= maxMoney()` and every display unit, no
asset scale being active, `setValue(v)` followed by `value()` returns
`(v, true)`, that is `parse(format(v, unit), unit) == (v, true)`, given that
the `parse` of the units library inverts its `format` at `v` for that unit. -/
theorem setValue_value_roundtrip (U : RedecoinUnits) (self : AmountSpinBox) (v : CAmount)
    (hlo : 0 ≤ v) (hhi : v ≤ U.maxMoney) (hmode : self.assetUnit < 0)
    (hinv : U.parse self.currentUnit
      (U.format self.currentUnit v false SeparatorStyle.separatorAlways self.assetUnit)
        = (true, v)) :
    (self.setValue U v).value U = (v, true) ∧
      self.parse U
        (U.format self.currentUnit v false SeparatorStyle.separatorAlways self.assetUnit)
          = (v, true) := by
  have h := value_setValue U self v hlo hhi (by rw [delegate_display U self _ hmode]; exact hinv)
  exact ⟨h, h⟩

/-- Witness of C4: the value `123450000000` in whole coins, in a field that
showed something else. -/
theorem setValue_value_roundtrip_witness :
    ((sampleSpinBox "7").setValue sampleUnits 123450000000).text = "1,234.50000000" ∧
      ((sampleSpinBox "7").setValue sampleUnits 123450000000).value sampleUnits
        = (123450000000, true) :=
  ⟨by decide,
    (setValue_value_roundtrip sampleUnits (sampleSpinBox "7") 123450000000 (by decide)
      (by decide) (by decide) (by decide)).1⟩

end AmountSpinBox

/-! ## Changing the display unit and the asset scale -/

namespace AmountSpinBox

/-- The field after `setDisplayUnit`, the old text being valid with value `v`. -/
theorem setDisplayUnit_of_valid (U : RedecoinUnits) (self : AmountSpinBox) (unit : Int)
    (v : CAmount) (h : self.value U = (v, true)) :
    self.setDisplayUnit U unit = ({ self with currentUnit := unit } : AmountSpinBox).setValue U v := by
  simp [setDisplayUnit, h]

/-- The field after `setDisplayUnit`, the old text not being valid. -/
theorem setDisplayUnit_of_invalid (U : RedecoinUnits) (self : AmountSpinBox) (unit : Int)
    (h : (self.value U).2 = false) :
    self.setDisplayUnit U unit = ({ self with currentUnit := unit } : AmountSpinBox).clear := by
  simp [setDisplayUnit, h]

/-- C5: for display units `A` (the current one) and `B` and a text that parses
validly to `v` under `A`, `setDisplayUnit(B)` renders `v` under `B`, and the
field then reads `(v, true)`, given that the `parse` of the units library inverts its
`format` at `v` for `B`.  For a text that does not parse validly under `A`,
`setDisplayUnit(B)` clears the field. -/
theorem setDisplayUnit_preserves_or_clears (U : RedecoinUnits) (self : AmountSpinBox)
    (B : Int) :
    (∀ v : CAmount, self.assetUnit < 0 → self.value U = (v, true) →
        U.parse B (U.format B v false SeparatorStyle.separatorAlways self.assetUnit)
          = (true, v) →
        (self.setDisplayUnit U B).currentUnit = B ∧
          (self.setDisplayUnit U B).text
            = U.format B v false SeparatorStyle.separatorAlways self.assetUnit ∧
          (self.setDisplayUnit U B).value U = (v, true)) ∧
      ((self.value U).2 = false → (self.setDisplayUnit U B).text = "") := by
  refine ⟨fun v hmode hv hinv => ?_, fun hv => ?_⟩
  · have hr := parse_valid U self self.text (by unfold value at hv; rw [hv])
    have hv1 : (self.parse U self.text).1 = v := by unfold value at hv; rw [hv]
    rw [setDisplayUnit_of_valid U self B v hv]
    refine ⟨rfl, rfl, ?_⟩
    apply value_setValue U _ v (hv1 ▸ hr.2.2.1) (hv1 ▸ hr.2.2.2)
    rw [delegate_display U ({ self with currentUnit := B } : AmountSpinBox) _ hmode]
    exact hinv
  · rw [setDisplayUnit_of_invalid U self B hv]
    rfl

/-- Witness of C5: the text `1,234.5` in whole coins (unit 0), switched to unit
1 (three decimal places less), reads the same value; the text `12x` is cleared. -/
theorem setDisplayUnit_preserves_or_clears_witness :
    (sampleSpinBox "1,234.5").value sampleUnits = (123450000000, true) ∧
      ((sampleSpinBox "1,234.5").setDisplayUnit sampleUnits 1).text = "1,234,500.00000" ∧
      ((sampleSpinBox "1,234.5").setDisplayUnit sampleUnits 1).value sampleUnits
        = (123450000000, true) ∧
      ((sampleSpinBox "12x").setDisplayUnit sampleUnits 1).text = "" :=
  ⟨by decide, by decide,
    ((setDisplayUnit_preserves_or_clears sampleUnits (sampleSpinBox "1,234.5") 1).1
      123450000000 (by decide) (by decide) (by decide)).2.2,
    (setDisplayUnit_preserves_or_clears sampleUnits (sampleSpinBox "12x") 1).2 (by decide)⟩

/-- The asset scale after `setAssetUnit`. -/
theorem setAssetUnit_assetUnit (U : RedecoinUnits) (self : AmountSpinBox) (unit : Int) :
    (self.setAssetUnit U unit).assetUnit = min unit MAX_ASSET_UNITS := by
  have hmin : (if unit > MAX_ASSET_UNITS then MAX_ASSET_UNITS else unit)
      = min unit MAX_ASSET_UNITS := by
    split_ifs with h
    · exact (min_eq_right (le_of_lt h)).symm
    · exact (min_eq_left (not_lt.mp h)).symm
  unfold setAssetUnit
  simp only [hmin]
  split <;> rfl

/-- The field after `setAssetUnit`: the text is read with the new scale in force. -/
theorem setAssetUnit_eq (U : RedecoinUnits) (self : AmountSpinBox) (unit : Int) :
    self.setAssetUnit U unit =
      if (({ self with assetUnit := min unit MAX_ASSET_UNITS } : AmountSpinBox).value U).2 = true
      then ({ self with assetUnit := min unit MAX_ASSET_UNITS } : AmountSpinBox).setValue U
        (({ self with assetUnit := min unit MAX_ASSET_UNITS } : AmountSpinBox).value U).1
      else ({ self with assetUnit := min unit MAX_ASSET_UNITS } : AmountSpinBox).clear := by
  have hmin : (if unit > MAX_ASSET_UNITS then MAX_ASSET_UNITS else unit)
      = min unit MAX_ASSET_UNITS := by
    split_ifs with h
    · exact (min_eq_right (le_of_lt h)).symm
    · exact (min_eq_left (not_lt.mp h)).symm
  unfold setAssetUnit
  simp only [hmin]

/-- C7, as stated, fails.  At scale 8 the text `1.5` is valid with value
`150000000`, and the library inverts its format at that value under scale 2;
after `setAssetUnit(2)` the field shows `1.50` and reads `(150, true)`, not
`(150000000, true)`.  At scale 0 the text `1.5` is not valid; after
`setAssetUnit(2)` the field is not cleared, it shows `1.50`. -/
theorem setAssetUnit_reads_new_scale_counterexample :
    ((sampleAssetSpinBox 8 "1.5").value sampleUnits = (150000000, true) ∧
        sampleUnits.assetParse 2
          (sampleUnits.format 0 150000000 false SeparatorStyle.separatorAlways 2)
            = (true, 150000000) ∧
        ((sampleAssetSpinBox 8 "1.5").setAssetUnit sampleUnits 2).text = "1.50" ∧
        ((sampleAssetSpinBox 8 "1.5").setAssetUnit sampleUnits 2).value sampleUnits
          = (150, true) ∧
        ((sampleAssetSpinBox 8 "1.5").setAssetUnit sampleUnits 2).value sampleUnits
          ≠ (150000000, true)) ∧
      (((sampleAssetSpinBox 0 "1.5").value sampleUnits).2 = false ∧
        ((sampleAssetSpinBox 0 "1.5").setAssetUnit sampleUnits 2).text = "1.50" ∧
        ((sampleAssetSpinBox 0 "1.5").setAssetUnit sampleUnits 2).text ≠ "") := by
  decide

/-- C7, amended: `setAssetUnit` sets the scale to `min(scale, MAX_ASSET_UNITS)`
and then reads the text under the new scale.  For every text that is valid
with value `v` under the new scale context, the field afterwards shows `v`
rendered under the new scale and reads `(v, true)`, given that the library call
inverts `format` at `v` under the new scale; for every text that is not valid
under the new scale context, the field is cleared. -/
theorem setAssetUnit_preserves_or_clears (U : RedecoinUnits) (self : AmountSpinBox)
    (unit : Int) :
    (self.setAssetUnit U unit).assetUnit = min unit MAX_ASSET_UNITS ∧
      (∀ v : CAmount,
        ({ self with assetUnit := min unit MAX_ASSET_UNITS } : AmountSpinBox).value U
          = (v, true) →
        (self.setAssetUnit U unit).text
            = U.format self.currentUnit v false SeparatorStyle.separatorAlways
                (min unit MAX_ASSET_UNITS) ∧
          (({ self with assetUnit := min unit MAX_ASSET_UNITS } : AmountSpinBox).delegate U
              (U.format self.currentUnit v false SeparatorStyle.separatorAlways
                (min unit MAX_ASSET_UNITS)) = (true, v) →
            (self.setAssetUnit U unit).value U = (v, true))) ∧
      ((({ self with assetUnit := min unit MAX_ASSET_UNITS } : AmountSpinBox).value U).2
          = false →
        (self.setAssetUnit U unit).text = "") := by
  refine ⟨setAssetUnit_assetUnit U self unit, fun v hv => ?_, fun hv => ?_⟩
  · have hr := parse_valid U _ _ (show (parse U _ _).2 = true by unfold value at hv; rw [hv])
    have hv1 : (parse U ({ self with assetUnit := min unit MAX_ASSET_UNITS } : AmountSpinBox)
        self.text).1 = v := by unfold value at hv; rw [hv]
    rw [setAssetUnit_eq, hv, if_pos rfl]
    refine ⟨rfl, fun hinv => ?_⟩
    exact value_setValue U _ v (hv1 ▸ hr.2.2.1) (hv1 ▸ hr.2.2.2) hinv
  · rw [setAssetUnit_eq, hv]
    rfl

/-- Witness of C7 amended: at scale 8 the text `1.5`, valid with value `150`
under the new scale 2, is shown as `1.50` and read as `(150, true)`; a request
for scale 11 gives scale 8; the text `1.234` is cleared by a change to scale 2. -/
theorem setAssetUnit_preserves_or_clears_witness :
    ((sampleAssetSpinBox 8 "1.5").setAssetUnit sampleUnits 2).text = "1.50" ∧
      ((sampleAssetSpinBox 8 "1.5").setAssetUnit sampleUnits 2).value sampleUnits
        = (150, true) ∧
      ((sampleAssetSpinBox 2 "1.5").setAssetUnit sampleUnits 11).assetUnit = 8 ∧
      ((sampleAssetSpinBox 8 "1.234").setAssetUnit sampleUnits 2).text = "" :=
  ⟨((setAssetUnit_preserves_or_clears sampleUnits (sampleAssetSpinBox 8 "1.5") 2).2.1 150
      (by decide)).1,
    ((setAssetUnit_preserves_or_clears sampleUnits (sampleAssetSpinBox 8 "1.5") 2).2.1 150
      (by decide)).2 (by decide),
    by decide,
    (setAssetUnit_preserves_or_clears sampleUnits (sampleAssetSpinBox 8 "1.234") 2).2.2
      (by decide)⟩

end AmountSpinBox

/-! ## The asset field -/

/-- Bounds on `m / 10^8 + 1` and on its product with `10^8`. -/
theorem scaled_quotient_bounds (m : Int) (hm : 1 ≤ m) (hfit : m + 10 ^ 8 < 2 ^ 63) :
    0 ≤ m / 10 ^ 8 + 1 ∧ m / 10 ^ 8 + 1 ≤ m ∧ m < (m / 10 ^ 8 + 1) * 10 ^ 8 ∧
      (m / 10 ^ 8 + 1) * 10 ^ 8 < 2 ^ 63 := by
  omega

namespace AssetAmountField

/-- The asset field after `setUnit(s)` and an edit of the text, for a scale
`s <= MAX_ASSET_UNITS`: both the field and its spin box hold the scale `s`. -/
theorem setUnit_setText (U : RedecoinUnits) (g : AssetAmountField) (s : Int) (text : String)
    (hs8 : s ≤ 8) :
    ((g.setUnit U s).setText text).assetUnit = s ∧
      ((g.setUnit U s).setText text).amount.assetUnit = s ∧
      ((g.setUnit U s).setText text).amount.text = text := by
  refine ⟨rfl, ?_, rfl⟩
  show (g.amount.setAssetUnit U s).assetUnit = s
  rw [AmountSpinBox.setAssetUnit_assetUnit]
  exact min_eq_left hs8

/-- The value of the asset field, in machine arithmetic. -/
theorem value_eq (U : RedecoinUnits) (f : AssetAmountField) :
    f.value U =
      (wrapInt64 ((f.amount.value U).1 * 10 ^ (8 - f.assetUnit).toNat), (f.amount.value U).2) :=
  rfl

/-- The value of the asset field when the product fits 64 bits. -/
theorem value_of_fits (U : RedecoinUnits) (f : AssetAmountField)
    (hfit : (f.amount.value U).1 * 10 ^ (8 - f.assetUnit).toNat < 2 ^ 63) :
    f.value U = ((f.amount.value U).1 * 10 ^ (8 - f.assetUnit).toNat, (f.amount.value U).2) := by
  have hnn : 0 ≤ (f.amount.value U).1 := AmountSpinBox.parse_nonneg U f.amount f.amount.text
  have hpos : (0 : Int) ≤ 10 ^ (8 - f.assetUnit).toNat := by positivity
  have hprod : 0 ≤ (f.amount.value U).1 * 10 ^ (8 - f.assetUnit).toNat := mul_nonneg hnn hpos
  rw [value_eq, wrapInt64_of_fits _ (le_trans (by norm_num) hprod) hfit]

/-- The overflow of the asset field does not depend on the units library: when
the product of the parsed magnitude and `10^(8 - assetUnit)` reaches `2^63`,
`value()` does not return it. -/
theorem value_ne_product_of_overflow (U : RedecoinUnits) (f : AssetAmountField)
    (hbig : 2 ^ 63 ≤ (f.amount.value U).1 * 10 ^ (8 - f.assetUnit).toNat) :
    (f.value U).1 ≠ (f.amount.value U).1 * 10 ^ (8 - f.assetUnit).toNat := by
  rw [value_eq]
  exact ne_of_lt (lt_of_lt_of_le (wrapInt64_lt _) hbig)

/-- C6 fails on the code: after `setUnit(0)` the text `100000000000` passes
live validation and is valid for the inner spin box with the parsed magnitude
`100000000000`; the product with `10^8` is `10^19`, which does not fit 64 bits,
and `AssetAmountField::value()` reports `valid == true` with the amount
`-8446744073709551616` instead of `parsedMagnitude * 10^(8 - 0)`. -/
theorem value_product_overflow :
    (sampleAssetField 0 "100000000000").assetUnit = 0 ∧
      (sampleAssetField 0 "100000000000").amount.assetUnit = 0 ∧
      (sampleAssetField 0 "100000000000").amount.validate sampleUnits "100000000000"
        = State.Intermediate ∧
      (sampleAssetField 0 "100000000000").amount.value sampleUnits = (100000000000, true) ∧
      (sampleAssetField 0 "100000000000").value sampleUnits = (-8446744073709551616, true) ∧
      ((sampleAssetField 0 "100000000000").value sampleUnits).1
        ≠ ((sampleAssetField 0 "100000000000").amount.value sampleUnits).1 * 10 ^ (8 - 0) := by
  decide

/-- The asset field where the product fits 64 bits: for an asset scale `s` in
`0..8` set by `setUnit(s)` and any text, `value()` returns the validity flag of
the inner spin box unchanged and, when `parsedMagnitude * 10^(8 - s)` is below
`2^63`, that product, where `parsedMagnitude` is the value the inner spin box
parses from the text under scale `s` (`0` when the text is not valid).  The
multiplier is `1` for `s = 8` and `10^8` for `s = 0`, and for `s = 2` with
`parsedMagnitude = 1000` the result is `1000000000`. -/
theorem value_scaled (U : RedecoinUnits) (g : AssetAmountField) (s : Int) (text : String)
    (hs0 : 0 ≤ s) (hs8 : s ≤ 8) :
    (((g.setUnit U s).setText text).amount.assetUnit = s ∧
        ((g.setUnit U s).setText text).amount.text = text ∧
        ((g.setUnit U s).setText text).amount.delegate U text = U.assetParse s text) ∧
      (((g.setUnit U s).setText text).value U).2
        = (((g.setUnit U s).setText text).amount.value U).2 ∧
      ((((g.setUnit U s).setText text).amount.value U).1 * 10 ^ (8 - s).toNat < 2 ^ 63 →
        (((g.setUnit U s).setText text).value U).1
          = (((g.setUnit U s).setText text).amount.value U).1 * 10 ^ (8 - s).toNat) ∧
      ((((g.setUnit U s).setText text).amount.value U).2 = false →
        ((g.setUnit U s).setText text).value U = (0, false)) ∧
      (factorAsset (8 - 8) = 1 ∧ factorAsset (8 - 0) = 10 ^ 8 ∧
        factorAsset (8 - s) = 10 ^ (8 - s).toNat) ∧
      (s = 2 → (((g.setUnit U s).setText text).amount.value U).1 = 1000 →
        (((g.setUnit U s).setText text).value U).1 = 1000000000) := by
  obtain ⟨h1, h2, h3⟩ := setUnit_setText U g s text hs8
  have h4 : ((g.setUnit U s).setText text).amount.delegate U text = U.assetParse s text := by
    unfold AmountSpinBox.delegate
    rw [h2, if_pos hs0]
  refine ⟨⟨h2, h3, h4⟩, rfl, fun hfit => ?_, fun hinv => ?_, ⟨by decide, by decide, rfl⟩,
    fun hs hm => ?_⟩
  · rw [value_of_fits U _ (by rw [h1]; exact hfit), h1]
  · have hz := AmountSpinBox.parse_invalid U _ _ hinv
    have hz1 : (((g.setUnit U s).setText text).amount.value U).1 = 0 := by
      unfold AmountSpinBox.value
      rw [hz]
    rw [value_of_fits U _ (by rw [hz1]; norm_num), hz1, hinv, zero_mul]
  · have h6 : (8 - (2 : Int)).toNat = 6 := by decide
    rw [value_of_fits U _ (by rw [h1, hm, hs, h6]; norm_num), h1, hm, hs, h6]
    norm_num

/-- An instance of the scaling: at scale 2 the text `10.00` has the parsed magnitude
`1000` and the field returns `(1000000000, true)`. -/
theorem value_scaled_witness :
    (sampleAssetField 2 "10.00").amount.value sampleUnits = (1000, true) ∧
      ((sampleAssetField 2 "10.00").value sampleUnits).1 = 1000000000 ∧
      ((sampleAssetField 2 "10.00").value sampleUnits).1 = 1000 * 10 ^ (8 - 2) :=
  ⟨by decide,
    (value_scaled sampleUnits (AssetAmountField.mk (sampleAssetSpinBox MAX_ASSET_UNITS "")
      MAX_ASSET_UNITS) 2 "10.00" (by decide) (by decide)).2.2.2.2.2 rfl (by decide),
    (value_scaled sampleUnits (AssetAmountField.mk (sampleAssetSpinBox MAX_ASSET_UNITS "")
      MAX_ASSET_UNITS) 2 "10.00" (by decide) (by decide)).2.2.1 (by decide)⟩

/-- C8 fails on the code: at scale 0 the text `21000001` is valid for the inner
spin box (`21000001 <= maxMoney()`), and `AssetAmountField::value()` reports
`valid == true` with the amount `2100000100000000`, above
`maxMoney() = 2100000000000000`; the text `100000000000` is reported valid
with a negative amount, the product having left the 64-bit range. -/
theorem value_valid_out_of_range :
    ((sampleAssetField 0 "21000001").amount.value sampleUnits = (21000001, true) ∧
        (sampleAssetField 0 "21000001").value sampleUnits = (2100000100000000, true) ∧
        sampleUnits.maxMoney < ((sampleAssetField 0 "21000001").value sampleUnits).1) ∧
      ((sampleAssetField 0 "100000000000").value sampleUnits
          = (-8446744073709551616, true) ∧
        ((sampleAssetField 0 "100000000000").value sampleUnits).1 < 0) := by
  decide

/-- The defect behind C8 does not depend on the value of `maxMoney()`: whenever
the asset parser at scale 0 yields `maxMoney() / 10^8 + 1` for the text, the
asset field reports `valid == true` with an amount above `maxMoney()`. -/
theorem value_above_maxMoney (U : RedecoinUnits) (f : AssetAmountField)
    (hM : 1 ≤ U.maxMoney) (hfit : U.maxMoney + 10 ^ 8 < 2 ^ 63)
    (hscale : f.assetUnit = 0) (hamount : f.amount.assetUnit = 0)
    (hparse : U.assetParse 0 f.amount.text = (true, U.maxMoney / 10 ^ 8 + 1)) :
    (f.value U).2 = true ∧ U.maxMoney < (f.value U).1 := by
  obtain ⟨hlo, hhi, hgt, hlt⟩ := scaled_quotient_bounds U.maxMoney hM hfit
  have hd : f.amount.delegate U f.amount.text = (true, U.maxMoney / 10 ^ 8 + 1) := by
    unfold AmountSpinBox.delegate
    rw [hamount, if_pos (le_refl _)]
    exact hparse
  have hp := AmountSpinBox.parse_of_accept U f.amount f.amount.text (by rw [hd])
    (by rw [hd]; exact hlo) (by rw [hd]; exact hhi)
  rw [hd] at hp
  have hv : f.amount.value U = (U.maxMoney / 10 ^ 8 + 1, true) := hp
  have h8 : (8 - (0 : Int)).toNat = 8 := by decide
  rw [value_of_fits U f (by rw [hv, hscale, h8]; exact hlt), hv, hscale, h8]
  exact ⟨rfl, hgt⟩

end AssetAmountField
